import Mathlib

/-!
Verification of the video-processor transcoding core: a shallow embedding of
`src/services/videoService.ts` and `src/consts/video.ts`, with theorems
checking the natural-language specification against it.

Conventions of the embedding:
- JS numbers are modelled as `ℚ` (exact rationals); `Math.round` becomes
  `jsRound`, which rounds half toward `+∞` exactly as JS does.
- Effectful code is modelled by explicit state/oracle passing: filesystem
  trees are inductive values, fallible operations are `Except`, and the
  outcome of each awaited sub-operation of the orchestrator is an oracle
  field.
-/

namespace VideoProcessor

/-- `ResolutionTarget` from `src/types/index.ts`. -/
structure ResolutionTarget where
  width : ℕ
  height : ℕ
  baseBitrate : ℕ
  crf : ℕ
deriving DecidableEq, Repr

/-- The static tier catalog `resolutionTargets` from `src/consts/video.ts`
(`Object.entries` order = insertion order of the record literal). -/
def resolutionTargets : List (String × ResolutionTarget) :=
  [("2160p", ⟨3840, 2160, 15000, 20⟩),
   ("1440p", ⟨2560, 1440, 8000, 21⟩),
   ("1080p", ⟨1920, 1080, 5000, 22⟩),
   ("720p",  ⟨1280, 720, 2500, 23⟩),
   ("480p",  ⟨854, 480, 1000, 23⟩)]

/-- Pixel count of a catalog entry. -/
def pixels (t : ResolutionTarget) : ℕ := t.width * t.height

/-- Floor of a rational, computed on the normalized numerator/denominator so
that it reduces inside the kernel. -/
def ratFloor (q : ℚ) : ℤ := Int.fdiv q.num q.den

/-- JS `Math.round`: rounds half toward positive infinity. -/
def jsRound (q : ℚ) : ℤ := ratFloor (q + 1/2)

/-- `calculateBitrate` (videoService.ts lines 131-140):
`bitrate = Math.round(baseBitrate * (width*height)/(1920*1080) * complexityFactor)`
formatted as a template string with a `k` suffix. -/
def calculateBitrate (width height baseBitrate : ℕ) (complexityFactor : ℚ) : String :=
  let resolutionFactor : ℚ := (width * height : ℚ) / (1920 * 1080)
  let bitrate : ℤ := jsRound (baseBitrate * resolutionFactor * complexityFactor)
  toString bitrate ++ "k"

/-- Stable descending insertion (JS `Array.prototype.sort` is stable):
an element is inserted after every element of greater-or-equal pixel count. -/
def insertByPixelsDesc (x : String × ResolutionTarget) :
    List (String × ResolutionTarget) → List (String × ResolutionTarget)
  | [] => [x]
  | y :: ys =>
      if pixels x.2 ≤ pixels y.2 then y :: insertByPixelsDesc x ys
      else x :: y :: ys

/-- Stable sort by descending pixel count, modelling
`Object.entries(resolutionTargets).sort(([,a],[,b]) => b.width*b.height - a.width*a.height)`. -/
def sortByPixelsDesc : List (String × ResolutionTarget) → List (String × ResolutionTarget)
  | [] => []
  | x :: xs => insertByPixelsDesc x (sortByPixelsDesc xs)

/-- `possibleTargets` (videoService.ts lines 158-160). -/
def possibleTargets : List (String × ResolutionTarget) :=
  sortByPixelsDesc resolutionTargets

/-- One entry of the planner's output list (the anonymous record type of
`getDynamicResolutions`). -/
structure Resolution where
  width : ℕ
  height : ℕ
  bitrate : String
  crf : ℕ
  name : String
deriving DecidableEq, Repr

/-- `getDynamicResolutions` (videoService.ts lines 143-199): select every
catalog tier whose pixel count does not exceed the source's; if none
qualifies, synthesize a single tier at the source's exact dimensions using
the `720p` base bitrate and crf 23. -/
def getDynamicResolutions (originalWidth originalHeight : ℕ)
    (contentComplexity : ℚ) : List Resolution :=
  let sourcePixels := originalWidth * originalHeight
  let resolutions :=
    (possibleTargets.filter (fun t => pixels t.2 ≤ sourcePixels)).map
      (fun t =>
        { width := t.2.width
          height := t.2.height
          bitrate := calculateBitrate t.2.width t.2.height t.2.baseBitrate contentComplexity
          crf := t.2.crf
          name := t.1 })
  if resolutions.isEmpty then
    let baseBitrate := (((resolutionTargets.lookup "720p").getD ⟨0, 0, 0, 0⟩)).baseBitrate
    [{ width := originalWidth
       height := originalHeight
       bitrate := calculateBitrate originalWidth originalHeight baseBitrate contentComplexity
       crf := 23
       name := toString originalHeight ++ "p (source)" }]
  else resolutions

/-! ## Sprite sheet generator (videoService.ts lines 201-388) -/

/-- The error cases `generateSpriteSheet` can throw before tiling. -/
inductive SpriteError where
  | invalidDuration
  | tooShort
  | insufficientFrames
deriving DecidableEq, Repr

/-- Grid selection (videoService.ts lines 257-266): default 5×5, `> 300` →
6×8, `> 600` → 8×10; returned as `(rows, cols)`. -/
def spriteGrid (duration : ℚ) : ℕ × ℕ :=
  if duration > 600 then (8, 10)
  else if duration > 300 then (6, 8)
  else (5, 5)

/-- `numThumbnails = rows * cols` (videoService.ts line 268). -/
def numThumbnails (duration : ℚ) : ℕ :=
  (spriteGrid duration).1 * (spriteGrid duration).2

/-- `safeStart` (videoService.ts line 283): `Math.min(duration * 0.05, 2)`. -/
def safeStart (duration : ℚ) : ℚ := min (duration * (5/100)) 2

/-- `safeEnd` (videoService.ts line 284): `Math.max(duration * 0.95, duration - 2)`. -/
def safeEnd (duration : ℚ) : ℚ := max (duration * (95/100)) (duration - 2)

/-- `safeDuration` (videoService.ts line 285). -/
def safeDuration (duration : ℚ) : ℚ := safeEnd duration - safeStart duration

/-- The guard sequence of `generateSpriteSheet` on the probed duration
(videoService.ts lines 249-251 and 283-289): reject non-positive durations,
then reject a non-positive safe window; otherwise return
`(safeStart, safeEnd, safeDuration)`. -/
def spriteWindowCheck (duration : ℚ) : Except SpriteError (ℚ × ℚ × ℚ) :=
  if duration ≤ 0 then .error .invalidDuration
  else if safeDuration duration ≤ 0 then .error .tooShort
  else .ok (safeStart duration, safeEnd duration, safeDuration duration)

/-! ## Manifest builder (videoService.ts lines 572-581) -/

/-- `VariantPlaylist` from `src/types/index.ts`. -/
structure VariantPlaylist where
  width : ℕ
  height : ℕ
  bitrate : String
  resolution : String
  playlist : String
deriving DecidableEq, Repr

/-- The variant record the encode loop pushes on success
(videoService.ts lines 555-561). -/
def mkVariant (r : Resolution) : VariantPlaylist :=
  { width := r.width
    height := r.height
    bitrate := r.bitrate
    resolution := toString r.width ++ "x" ++ toString r.height
    playlist := (r.name.replace " (source)" "") ++ "/index.m3u8" }

/-- A concrete variant record used to instantiate the manifest theorems. -/
def demoVariant : VariantPlaylist :=
  { width := 1280, height := 720, bitrate := "1111k",
    resolution := "1280x720", playlist := "720p/index.m3u8" }

/-- Leading decimal digits of a character list. -/
def leadingDigits (cs : List Char) : List Char :=
  cs.takeWhile (fun c => c.isDigit)

/-- Numeric value of a digit list (most significant first). -/
def digitsVal (ds : List Char) : ℕ :=
  ds.foldl (fun a c => a * 10 + (c.toNat - 48)) 0

/-- JS `parseInt(s)` on an already-trimmed string: an optional sign followed
by a maximal digit run; `none` models `NaN` (no digits). -/
def jsParseInt (s : String) : Option ℤ :=
  match s.data with
  | '-' :: cs =>
      if (leadingDigits cs).isEmpty then none
      else some (-(digitsVal (leadingDigits cs) : ℤ))
  | cs =>
      if (leadingDigits cs).isEmpty then none
      else some ((digitsVal (leadingDigits cs) : ℤ))

/-- The interpolated `${parseInt(variant.bitrate) * 1000}` of
videoService.ts line 575-576 (`NaN` prints as the string `NaN`). -/
def bandwidthString (bitrate : String) : String :=
  match jsParseInt bitrate with
  | some n => toString (n * 1000)
  | none => "NaN"

/-- One `#EXT-X-STREAM-INF` block of the master playlist
(videoService.ts line 576). -/
def streamInfBlock (v : VariantPlaylist) : String :=
  "#EXT-X-STREAM-INF:BANDWIDTH=" ++ bandwidthString v.bitrate ++
    ",RESOLUTION=" ++ v.resolution ++ "\n" ++ v.playlist

/-- `masterPlaylistContent` (videoService.ts lines 573-578). -/
def masterPlaylistContent (variants : List VariantPlaylist) : String :=
  String.intercalate "\n" (variants.map streamInfBlock)

/-- The bytes written to `master.m3u8` (videoService.ts line 581). -/
def masterPlaylistFile (variants : List VariantPlaylist) : String :=
  "#EXTM3U\n" ++ masterPlaylistContent variants

/-- Modelled from the spec (§4.4): the spec-side description of the master
manifest — a header line, then for each variant a stream-info line carrying
`BANDWIDTH = numeric(bitrate)*1000` and `RESOLUTION = width x height`,
followed by the variant's relative playlist path. Used only to compare the
code's `masterPlaylistFile` against the spec's wording. -/
def specMasterManifest (variants : List VariantPlaylist) : String :=
  "#EXTM3U\n" ++ String.intercalate "\n" (variants.map (fun v =>
    "#EXT-X-STREAM-INF:BANDWIDTH=" ++ toString (digitsVal (leadingDigits v.bitrate.data) * 1000) ++
      ",RESOLUTION=" ++ toString v.width ++ "x" ++ toString v.height ++ "\n" ++ v.playlist))

/-! ## Upload coordinator (videoService.ts lines 679-725) -/

/-- A directory entry: the filesystem tree the coordinator walks. -/
inductive Entry where
  | file (name : String)
  | dir (name : String) (entries : List Entry)

/-- `readDir` (videoService.ts lines 681-691): depth-first walk collecting
regular files; a directory's contents are visited at the directory's
position. Paths are accumulated relative to the walk root. -/
def walkRel (base : String) : List Entry → List String
  | [] => []
  | .file n :: rest => (base ++ n) :: walkRel base rest
  | .dir n es :: rest => walkRel (base ++ n ++ "/") es ++ walkRel base rest

/-- Number of regular files in a tree. -/
def countFiles : List Entry → ℕ
  | [] => 0
  | .file _ :: rest => 1 + countFiles rest
  | .dir _ es :: rest => countFiles es + countFiles rest

/-- Content type selection (videoService.ts lines 709-711). -/
def contentTypeFor (p : String) : String :=
  if p.endsWith ".m3u8" then "application/x-mpegURL" else "video/MP2T"

/-- Remote key for one file (videoService.ts line 700). -/
def s3KeyFor (objectId rel : String) : String :=
  "courses/chapters/videos/" ++ objectId ++ "/" ++ rel

/-- `UploadTask`: the data of one `s3.upload` invocation. -/
structure UploadTask where
  relativePath : String
  s3Key : String
  contentType : String
deriving DecidableEq, Repr

/-- The upload invocations issued by the coordinator, in walk order
(videoService.ts lines 698-721). -/
def uploadTasks (objectId : String) (es : List Entry) : List UploadTask :=
  (walkRel "" es).map (fun rel => ⟨rel, s3KeyFor objectId rel, contentTypeFor rel⟩)

/-- `Promise.all` over already-determined outcomes, determinized to list
order: the result is `ok` with all values iff no element failed, and the
first (in list order) error otherwise. -/
def promiseAll {ε α : Type} : List (Except ε α) → Except ε (List α)
  | [] => .ok []
  | .error e :: _ => .error e
  | .ok a :: rest => (promiseAll rest).map (a :: ·)

/-- `uploadHlsFilesToS3` (videoService.ts lines 679-725) over an upload
outcome oracle `ok` (keyed by relative path): walk the tree, issue one
upload per file, fail the whole call if any upload fails (the per-task
`catch` logs and rethrows, so `Promise.all` still rejects). -/
def uploadHlsFilesToS3 (objectId : String) (es : List Entry)
    (ok : String → Bool) : Except String (List Unit) :=
  promiseAll ((uploadTasks objectId es).map (fun t =>
    if ok t.relativePath then .ok () else .error ("Failed to upload " ++ t.s3Key)))

/-! ## Job orchestrator and status register (videoService.ts lines 455-730) -/

/-- The phases stored in `conversionStatus`. -/
inductive Phase where
  | converting
  | uploading
  | completed
  | error
deriving DecidableEq, Repr

/-- Outcomes of the awaited sub-operations of `convertToHLS`, abstracting
the engine and storage collaborators. `thumbnailOk`/`spriteOk` are the
best-effort stages (their failures are swallowed by their own
`try`/`catch`); `probe` is `getVideoResolution`; `encode` gives the result
of the segmented encode for a tier name; `upload` is the coordinator's
overall result. -/
structure StageOutcomes where
  thumbnailOk : Bool
  spriteOk : Bool
  probe : Except String (ℕ × ℕ)
  encode : String → Except String Unit
  upload : Except String Unit

/-- Error of the first tier (in plan order) whose encode fails, if any —
the loop of videoService.ts lines 518-570 is strictly sequential and
rejects on the first failure. -/
def firstEncodeError (o : StageOutcomes) (tiers : List Resolution) : Option String :=
  tiers.findSome? (fun r =>
    match o.encode r.name with
    | .error e => some e
    | .ok _ => none)

/-- The sequence of writes to `conversionStatus` made by one `convertToHLS`
run, paired with the call's result (videoService.ts lines 455-677):
`converting` on entry; best-effort thumbnail/sprite failures change
nothing; a fatal probe or encode error writes `error` and rethrows;
otherwise `uploading` precedes the coordinator, whose failure writes
`error` and rethrows; on success `completed` is written and cleanup-time
errors are swallowed. -/
def convertToHLSTrace (o : StageOutcomes) : List Phase × Except String Unit :=
  match o.probe with
  | .error e => ([.converting, .error], .error e)
  | .ok (w, h) =>
      match firstEncodeError o (getDynamicResolutions w h 1) with
      | some e => ([.converting, .error], .error e)
      | none =>
          match o.upload with
          | .error e => ([.converting, .uploading, .error], .error e)
          | .ok _ => ([.converting, .uploading, .completed], .ok ())

/-- The transition relation the spec allows between successive recorded
phases: forward along converting → uploading → completed, or a jump from
any non-error phase to `error`. -/
def phaseStep (a b : Phase) : Prop :=
  (a = .converting ∧ b = .uploading) ∨ (a = .uploading ∧ b = .completed) ∨
    (a ≠ .error ∧ b = .error)

instance : DecidableRel phaseStep := fun a b => by
  unfold phaseStep; infer_instance

/-! ## Cleanup coordinator (videoService.ts lines 414-453) -/

/-- A node of the local filesystem tree cleanup operates on. -/
inductive Node where
  | file (name : String)
  | dir (name : String) (children : List Node)

/-- `cleanupDirectory`'s body over a directory's children (videoService.ts
lines 421-448), with per-path failure oracles for `unlinkSync` (`failU`)
and `rmdirSync` (`failR`). Returns the entries that remain and the error
log, in processing order: files are unlinked (a failure is caught, logged,
and the file kept); directories are cleaned recursively and then removed —
`rmdirSync` fails when the directory is still non-empty or when the oracle
says so, and that failure too is caught and logged. -/
def cleanupList (failU failR : String → Bool) (path : String) :
    List Node → List Node × List String
  | [] => ([], [])
  | .file c :: rest =>
      let r := cleanupList failU failR path rest
      if failU (path ++ "/" ++ c) then
        (Node.file c :: r.1, ("Failed to delete file " ++ path ++ "/" ++ c) :: r.2)
      else r
  | .dir d cs :: rest =>
      let inner := cleanupList failU failR (path ++ "/" ++ d) cs
      let rest' := cleanupList failU failR path rest
      if inner.1.isEmpty && !failR (path ++ "/" ++ d) then
        (rest'.1, inner.2 ++ rest'.2)
      else
        (Node.dir d inner.1 :: rest'.1,
          inner.2 ++ ["Failed to delete directory " ++ path ++ "/" ++ d] ++ rest'.2)

/-- `cleanupDirectory(dirPath)` (videoService.ts lines 414-453) on the tree
rooted at `dirPath` (`none` = path does not exist). `fs.existsSync` false
→ silent return; a file path makes `readdirSync` throw, which the outer
catch turns into a log entry; a directory is emptied child by child and
then removed. The return type is a pure pair: every fallible operation of
the body sits under a `try`/`catch`, so no error escapes to the caller. -/
def cleanupDirectory (failU failR : String → Bool) (dirPath : String) :
    Option Node → Option Node × List String
  | none => (none, [])
  | some (.file n) => (some (.file n), ["Error during directory cleanup of " ++ dirPath])
  | some (.dir n cs) =>
      let r := cleanupList failU failR dirPath cs
      if r.1.isEmpty && !failR dirPath then (none, r.2)
      else (some (.dir n r.1), r.2 ++ ["Failed to delete directory " ++ dirPath])

/-! ## Helper lemmas -/

/-- The catalog is already in descending pixel order, so the stable sort
fixes it. -/
theorem possibleTargets_eq : possibleTargets = resolutionTargets := by decide

/-! ## Claims about the resolution planner -/

/-- Claim C1, counterexample: for a 640×360 source (smaller than every
catalog tier) the synthesized tier's bitrate is "278k", which comes from
the 720p base bitrate 2500; the claimed formula over the smallest catalog
tier's base bitrate (480p, 1000) would give "111k" instead. -/
theorem planner_fallback_base_bitrate_counterexample :
    getDynamicResolutions 640 360 1 =
      [{ width := 640, height := 360, bitrate := "278k", crf := 23, name := "360p (source)" }]
    ∧ calculateBitrate 640 360 1000 1 = "111k"
    ∧ ("278k" : String) ≠ "111k"
    ∧ (∀ t ∈ resolutionTargets, 640 * 360 < pixels t.2) :=
  ⟨by with_unfolding_all rfl, by with_unfolding_all rfl, by decide, by decide⟩

/-- Claim C1 (amended): when no catalog tier fits (the source pixel count
is smaller than every catalog tier's pixel count), the planner returns
exactly one synthesized tier at the source's exact dimensions, with
crf 23, name "{height}p (source)", and bitrate computed from the 720p
catalog tier's base bitrate (2500) via the standard bitrate formula. -/
theorem planner_fallback_synthesized_tier (w h : ℕ) (c : ℚ)
    (hsmall : ∀ t ∈ resolutionTargets, w * h < pixels t.2) :
    getDynamicResolutions w h c =
      [{ width := w, height := h,
         bitrate := calculateBitrate w h 2500 c,
         crf := 23, name := toString h ++ "p (source)" }]
    ∧ ((resolutionTargets.lookup "720p").getD ⟨0, 0, 0, 0⟩).baseBitrate = 2500 := by
  have h1 : w * h < 8294400 := hsmall ("2160p", ⟨3840, 2160, 15000, 20⟩) (by decide)
  have h2 : w * h < 3686400 := hsmall ("1440p", ⟨2560, 1440, 8000, 21⟩) (by simp [resolutionTargets])
  have h3 : w * h < 2073600 := hsmall ("1080p", ⟨1920, 1080, 5000, 22⟩) (by simp [resolutionTargets])
  have h4 : w * h < 921600 := hsmall ("720p", ⟨1280, 720, 2500, 23⟩) (by simp [resolutionTargets])
  have h5 : w * h < 409920 := hsmall ("480p", ⟨854, 480, 1000, 23⟩) (by simp [resolutionTargets])
  constructor
  · simp only [getDynamicResolutions, possibleTargets_eq, resolutionTargets, pixels, List.filter]
    norm_num
    simp [List.lookup, show ¬ (8294400 ≤ w * h) by omega, show ¬ (3686400 ≤ w * h) by omega,
      show ¬ (2073600 ≤ w * h) by omega, show ¬ (921600 ≤ w * h) by omega,
      show ¬ (409920 ≤ w * h) by omega]
  · decide

/-- Witness for `planner_fallback_synthesized_tier` at a 640×360 source. -/
theorem planner_fallback_synthesized_tier_witness :
    (∀ t ∈ resolutionTargets, 640 * 360 < pixels t.2)
    ∧ (getDynamicResolutions 640 360 1 =
        [{ width := 640, height := 360,
           bitrate := calculateBitrate 640 360 2500 1,
           crf := 23, name := toString 360 ++ "p (source)" }]
      ∧ ((resolutionTargets.lookup "720p").getD ⟨0, 0, 0, 0⟩).baseBitrate = 2500) :=
  ⟨by decide, planner_fallback_synthesized_tier 640 360 1 (by decide)⟩

/-! ## Claims about the sprite sheet generator -/

/-- Claim C2, counterexample: a 720-second source satisfies
`duration > 600`, so the sprite grid is 8×10 with 80 frames, not the
claimed 6×8 grid of 48 frames. -/
theorem end_to_end_sprite_grid_counterexample :
    spriteGrid 720 = (8, 10) ∧ spriteGrid 720 ≠ (6, 8)
    ∧ numThumbnails 720 = 80 ∧ numThumbnails 720 ≠ 48 := by decide

set_option maxRecDepth 8000 in
/-- Claim C2 (amended): for a 720-second, 1920×1080 source the planner
yields exactly the tiers 1080p, 720p, 480p in that order, the master
manifest contains exactly 3 stream-info lines in that order, and the
sprite sheet generator uses an 8×10 grid of 80 frames. -/
theorem end_to_end_720s_1080p :
    (getDynamicResolutions 1920 1080 1).map (fun r => r.name) = ["1080p", "720p", "480p"]
    ∧ masterPlaylistFile ((getDynamicResolutions 1920 1080 1).map mkVariant) =
        "#EXTM3U\n#EXT-X-STREAM-INF:BANDWIDTH=5000000,RESOLUTION=1920x1080\n1080p/index.m3u8\n#EXT-X-STREAM-INF:BANDWIDTH=1111000,RESOLUTION=1280x720\n720p/index.m3u8\n#EXT-X-STREAM-INF:BANDWIDTH=198000,RESOLUTION=854x480\n480p/index.m3u8"
    ∧ (((masterPlaylistFile ((getDynamicResolutions 1920 1080 1).map mkVariant)).splitOn "\n").filter
        (fun l => l.startsWith "#EXT-X-STREAM-INF")) =
        ["#EXT-X-STREAM-INF:BANDWIDTH=5000000,RESOLUTION=1920x1080",
         "#EXT-X-STREAM-INF:BANDWIDTH=1111000,RESOLUTION=1280x720",
         "#EXT-X-STREAM-INF:BANDWIDTH=198000,RESOLUTION=854x480"]
    ∧ spriteGrid 720 = (8, 10) ∧ numThumbnails 720 = 80 :=
  ⟨by with_unfolding_all rfl, by with_unfolding_all rfl, by with_unfolding_all rfl, by decide, by decide⟩

/-- Claim C4: for any probed duration d greater than 0, the generator
computes start = min(0.05·d, 2), end = max(0.95·d, d−2),
span = end − start, and fails with the too-short error exactly when
span ≤ 0; in particular d = 100 proceeds with start 2, end 98, span 96. -/
theorem sprite_safe_window (d : ℚ) (hd : 0 < d) :
    (spriteWindowCheck d = .error .tooShort ↔ safeDuration d ≤ 0)
    ∧ safeStart d = min (d * (5/100)) 2
    ∧ safeEnd d = max (d * (95/100)) (d - 2)
    ∧ safeDuration d = safeEnd d - safeStart d
    ∧ spriteWindowCheck 100 = .ok (2, 98, 96) := by
  have h1 : ¬ d ≤ 0 := not_le.mpr hd
  refine ⟨?_, rfl, rfl, rfl, by with_unfolding_all rfl⟩
  unfold spriteWindowCheck
  rw [if_neg h1]
  by_cases h2 : safeDuration d ≤ 0 <;> simp [h2]

/-- Witness for `sprite_safe_window` at d = 100. -/
theorem sprite_safe_window_witness :
    (0 : ℚ) < 100
    ∧ ((spriteWindowCheck 100 = .error .tooShort ↔ safeDuration 100 ≤ 0)
      ∧ safeStart 100 = min (100 * (5/100)) 2
      ∧ safeEnd 100 = max (100 * (95/100)) (100 - 2)
      ∧ safeDuration 100 = safeEnd 100 - safeStart 100
      ∧ spriteWindowCheck 100 = .ok (2, 98, 96)) :=
  ⟨by decide, sprite_safe_window 100 (by decide)⟩

/-- Claim C5: the sprite grid is chosen solely by duration — 8×10 above
600 s, else 6×8 above 300 s, else 5×5 — giving 25 frames at 120 s, 48 at
400 s, and 80 at 900 s. -/
theorem sprite_grid_selection :
    (∀ d : ℚ, spriteGrid d = if 600 < d then (8, 10) else if 300 < d then (6, 8) else (5, 5))
    ∧ spriteGrid 120 = (5, 5) ∧ numThumbnails 120 = 25
    ∧ spriteGrid 400 = (6, 8) ∧ numThumbnails 400 = 48
    ∧ spriteGrid 900 = (8, 10) ∧ numThumbnails 900 = 80 :=
  ⟨fun _ => rfl, by decide, by decide, by decide, by decide, by decide, by decide⟩

/-- Claim C10: once the duration guard has passed (d > 0), the safe-window
span equals 0.9·d for d ≤ 40 and d − 4 for d > 40, hence is strictly
positive, so the too-short branch is unreachable. -/
theorem sprite_window_always_positive (d : ℚ) (hd : 0 < d) :
    safeDuration d = (if d ≤ 40 then (9/10) * d else d - 4)
    ∧ 0 < safeDuration d
    ∧ spriteWindowCheck d ≠ .error .tooShort := by
  have key : safeDuration d = (if d ≤ 40 then (9/10) * d else d - 4) := by
    unfold safeDuration safeEnd safeStart
    by_cases h : d ≤ 40
    · rw [if_pos h, min_eq_left (by linarith), max_eq_left (by linarith)]
      ring
    · push_neg at h
      rw [if_neg (not_le.mpr h), min_eq_right (by linarith), max_eq_right (by linarith)]
      ring
  have pos : 0 < safeDuration d := by
    rw [key]
    by_cases h : d ≤ 40 <;> simp [h] <;> linarith
  refine ⟨key, pos, ?_⟩
  unfold spriteWindowCheck
  rw [if_neg (not_le.mpr hd), if_neg (not_le.mpr pos)]
  simp

/-- Witness for `sprite_window_always_positive` at d = 50. -/
theorem sprite_window_always_positive_witness :
    (0 : ℚ) < 50
    ∧ (safeDuration 50 = (if (50 : ℚ) ≤ 40 then (9/10) * 50 else 50 - 4)
      ∧ 0 < safeDuration 50
      ∧ spriteWindowCheck 50 ≠ .error .tooShort) :=
  ⟨by decide, sprite_window_always_positive 50 (by decide)⟩


/-- Claim C3, counterexample: for a 100×100 source no catalog tier fits,
yet the planner returns one (synthesized, non-catalog) tier, so the result
is not "exactly those catalog tiers whose pixel count fits". -/
theorem planner_catalog_only_counterexample :
    (getDynamicResolutions 100 100 1).map (fun r => r.name) = ["100p (source)"]
    ∧ "100p (source)" ∉ resolutionTargets.map (fun t => t.1)
    ∧ possibleTargets.filter (fun t => pixels t.2 ≤ 100 * 100) = [] :=
  ⟨by with_unfolding_all rfl, by decide, by decide⟩

/-- Claim C3 (amended): whenever at least one catalog tier fits the
source, the planner returns exactly those catalog tiers whose pixel count
is at most the source pixel count, ordered strictly descending by pixel
count with no duplicate names, each carrying the tier's catalog crf and
the bitrate round(baseBitrate * (tierW*tierH)/(1920*1080) * complexity)
with a "k" suffix; a 1280×720 tier with base bitrate 2500 and complexity
1.0 yields "1111k". -/
theorem planner_catalog_selection (w h : ℕ) (c : ℚ)
    (hfit : ∃ t ∈ resolutionTargets, pixels t.2 ≤ w * h) :
    (∀ r ∈ getDynamicResolutions w h c, ∃ t ∈ resolutionTargets, pixels t.2 ≤ w * h
        ∧ r.name = t.1 ∧ r.width = t.2.width ∧ r.height = t.2.height ∧ r.crf = t.2.crf
        ∧ r.bitrate = toString (jsRound ((t.2.baseBitrate : ℚ) * ((t.2.width * t.2.height : ℕ) : ℚ) / (1920 * 1080) * c)) ++ "k")
    ∧ (∀ t ∈ resolutionTargets, pixels t.2 ≤ w * h →
        t.1 ∈ (getDynamicResolutions w h c).map (fun r => r.name))
    ∧ (getDynamicResolutions w h c).Pairwise (fun a b => b.width * b.height < a.width * a.height)
    ∧ ((getDynamicResolutions w h c).map (fun r => r.name)).Nodup
    ∧ calculateBitrate 1280 720 2500 1 = "1111k" := by
  classical
  set p : String × ResolutionTarget → Bool := fun t => decide (pixels t.2 ≤ w * h) with hp
  set f : String × ResolutionTarget → Resolution := fun t =>
    { width := t.2.width
      height := t.2.height
      bitrate := calculateBitrate t.2.width t.2.height t.2.baseBitrate c
      crf := t.2.crf
      name := t.1 } with hf
  have hL : getDynamicResolutions w h c = (resolutionTargets.filter p).map f := by
    obtain ⟨t, ht, hle⟩ := hfit
    have hmem : t ∈ resolutionTargets.filter p := by
      exact List.mem_filter.mpr ⟨ht, by simp [hp, hle]⟩
    have hne : ((resolutionTargets.filter p).map f).isEmpty = false := by
      cases hfil : resolutionTargets.filter p with
      | nil => rw [hfil] at hmem; exact absurd hmem (List.not_mem_nil t)
      | cons a l => rfl
    unfold getDynamicResolutions
    rw [possibleTargets_eq]
    simp only [hne, Bool.false_eq_true, if_false]
  have hbr : ∀ t : String × ResolutionTarget,
      calculateBitrate t.2.width t.2.height t.2.baseBitrate c =
        toString (jsRound ((t.2.baseBitrate : ℚ) * ((t.2.width * t.2.height : ℕ) : ℚ) / (1920 * 1080) * c)) ++ "k" := by
    intro t
    have hAB : ((t.2.baseBitrate : ℚ) * (((t.2.width : ℚ) * (t.2.height : ℚ)) / (1920 * 1080)) * c)
        = ((t.2.baseBitrate : ℚ) * ((t.2.width * t.2.height : ℕ) : ℚ) / (1920 * 1080) * c) := by
      push_cast
      ring
    simp only [calculateBitrate]
    rw [hAB]
  refine ⟨?_, ?_, ?_, ?_, by with_unfolding_all rfl⟩
  · intro r hr
    rw [hL] at hr
    obtain ⟨t, htL, rfl⟩ := List.mem_map.mp hr
    obtain ⟨ht, hple⟩ := List.mem_filter.mp htL
    refine ⟨t, ht, by simpa [hp] using hple, rfl, rfl, rfl, rfl, ?_⟩
    exact hbr t
  · intro t ht hle
    rw [hL]
    refine List.mem_map.mpr ⟨f t, List.mem_map.mpr ⟨t, List.mem_filter.mpr ⟨ht, by simp [hp, hle]⟩, rfl⟩, rfl⟩
  · rw [hL, List.pairwise_map]
    have hpw : (resolutionTargets.filter p).Pairwise
        (fun a b => pixels b.2 < pixels a.2) := by
      refine List.Pairwise.sublist (resolutionTargets.filter_sublist) ?_
      decide
    exact hpw.imp (fun hab => hab)
  · rw [hL, List.map_map]
    have : ((fun r : Resolution => r.name) ∘ f) = fun t : String × ResolutionTarget => t.1 := rfl
    rw [this]
    have hnd : (resolutionTargets.map (fun t => t.1)).Nodup := by decide
    exact hnd.sublist (List.Sublist.map _ (resolutionTargets.filter_sublist))


/-- Witness for `planner_catalog_selection` at a 1920×1080 source. -/
theorem planner_catalog_selection_witness :
    (∃ t ∈ resolutionTargets, pixels t.2 ≤ 1920 * 1080)
    ∧ ((∀ r ∈ getDynamicResolutions 1920 1080 1, ∃ t ∈ resolutionTargets, pixels t.2 ≤ 1920 * 1080
        ∧ r.name = t.1 ∧ r.width = t.2.width ∧ r.height = t.2.height ∧ r.crf = t.2.crf
        ∧ r.bitrate = toString (jsRound ((t.2.baseBitrate : ℚ) * ((t.2.width * t.2.height : ℕ) : ℚ) / (1920 * 1080) * 1)) ++ "k")
    ∧ (∀ t ∈ resolutionTargets, pixels t.2 ≤ 1920 * 1080 →
        t.1 ∈ (getDynamicResolutions 1920 1080 1).map (fun r => r.name))
    ∧ (getDynamicResolutions 1920 1080 1).Pairwise (fun a b => b.width * b.height < a.width * a.height)
    ∧ ((getDynamicResolutions 1920 1080 1).map (fun r => r.name)).Nodup
    ∧ calculateBitrate 1280 720 2500 1 = "1111k") :=
  ⟨⟨("480p", ⟨854, 480, 1000, 23⟩), by decide, by decide⟩, planner_catalog_selection 1920 1080 1 ⟨("480p", ⟨854, 480, 1000, 23⟩), by decide, by decide⟩⟩


/-- When a string starts with a digit, the modelled `parseInt` returns
exactly the value of its leading digit run. -/
theorem bandwidthString_digits (s : String) (c : Char) (cs : List Char)
    (hdata : s.data = c :: cs) (hc : c.isDigit = true) :
    bandwidthString s = toString (digitsVal (leadingDigits s.data) * 1000) := by
  have hne : c ≠ '-' := by
    intro h
    subst h
    simp [Char.isDigit] at hc
  have hld : (leadingDigits (c :: cs)).isEmpty = false := by
    simp [leadingDigits, List.takeWhile, hc]
  have hparse : jsParseInt s = some ((digitsVal (leadingDigits (c :: cs)) : ℤ)) := by
    unfold jsParseInt
    rw [hdata]
    split
    · next cs2 heq =>
        cases heq
        exact absurd rfl hne
    · rw [hld]
      simp
  unfold bandwidthString
  rw [hparse, hdata]
  have hcast : ((digitsVal (leadingDigits (c :: cs)) : ℤ) * 1000)
      = ((digitsVal (leadingDigits (c :: cs)) * 1000 : ℕ) : ℤ) := by
    push_cast
    ring
  change toString ((digitsVal (leadingDigits (c :: cs)) : ℤ) * 1000) = _
  rw [hcast]
  rfl

/-- Claim C6: the master manifest is a header line followed, for each
variant in planner order, by a stream-info line whose BANDWIDTH is the
numeric prefix of the variant's bitrate string times 1000 (bitrate "1111k"
emits BANDWIDTH 1111000) and whose RESOLUTION is "widthxheight", followed
by the variant's relative playlist path — stated as a refinement of the
code's manifest builder by the spec-side `specMasterManifest`, for
variants whose fields have the shape the encode loop produces. -/
theorem master_manifest_structure (variants : List VariantPlaylist)
    (hres : ∀ v ∈ variants, v.resolution = toString v.width ++ "x" ++ toString v.height)
    (hbit : ∀ v ∈ variants, ∃ c cs, v.bitrate.data = c :: cs ∧ c.isDigit = true) :
    masterPlaylistFile variants = specMasterManifest variants
    ∧ bandwidthString "1111k" = "1111000" := by
  refine ⟨?_, by decide⟩
  unfold masterPlaylistFile specMasterManifest masterPlaylistContent
  congr 1
  congr 1
  apply List.map_congr_left
  intro v hv
  obtain ⟨c, cs, hdata, hc⟩ := hbit v hv
  unfold streamInfBlock
  rw [hres v hv, bandwidthString_digits v.bitrate c cs hdata hc]
  simp [String.append_assoc]


/-- Witness for `master_manifest_structure` on a one-variant list. -/
theorem master_manifest_structure_witness :
    (∀ v ∈ [demoVariant], v.resolution = toString v.width ++ "x" ++ toString v.height)
    ∧ (∀ v ∈ [demoVariant], ∃ c cs, v.bitrate.data = c :: cs ∧ c.isDigit = true)
    ∧ (masterPlaylistFile [demoVariant] = specMasterManifest [demoVariant]
      ∧ bandwidthString "1111k" = "1111000") := by
  have hbit : ∀ v ∈ [demoVariant], ∃ c cs, v.bitrate.data = c :: cs ∧ c.isDigit = true := by
    intro v hv
    simp only [List.mem_singleton] at hv
    subst hv
    exact ⟨'1', ['1', '1', '1', 'k'], rfl, by decide⟩
  exact ⟨by decide, hbit, master_manifest_structure _ (by decide) hbit⟩


/-- The walk visits exactly the regular files of the tree. -/
theorem walkRel_length : ∀ (base : String) (es : List Entry),
    (walkRel base es).length = countFiles es
  | _, [] => by simp [walkRel, countFiles]
  | base, .file n :: rest => by
      simp [walkRel, countFiles, walkRel_length base rest]
      omega
  | base, .dir n es2 :: rest => by
      simp [walkRel, countFiles, walkRel_length (base ++ n ++ "/") es2,
        walkRel_length base rest]

/-- `Promise.all` settles `ok` exactly when every constituent does. -/
theorem promiseAll_ok_iff {ε α : Type} : ∀ l : List (Except ε α),
    (∃ v, promiseAll l = .ok v) ↔ ∀ x ∈ l, ∃ a, x = .ok a
  | [] => by simp [promiseAll]
  | .error e :: rest => by simp [promiseAll]
  | .ok a :: rest => by
      rcases h : promiseAll rest with e | w
      · have hr := promiseAll_ok_iff rest
        rw [h] at hr
        simp only [promiseAll, h, Except.map]
        constructor
        · rintro ⟨v, hv⟩
          exact Except.noConfusion hv
        · intro hall
          exfalso
          obtain ⟨v, hv⟩ := hr.mpr (fun x hx => hall x (List.mem_cons_of_mem _ hx))
          exact Except.noConfusion hv
      · have hr := promiseAll_ok_iff rest
        rw [h] at hr
        simp [promiseAll, h, Except.map]
        intro x hx
        have := hr.mp ⟨w, rfl⟩
        exact this x hx

/-- Claim C7: on a tree of N regular files the coordinator issues exactly
N upload calls, content-typed application/x-mpegURL for paths ending in
.m3u8 and video/MP2T otherwise, and the whole call succeeds iff every
single upload succeeds — any failure fails the call as a whole, never
reporting partial success. -/
theorem upload_coordinator_behavior (objectId : String) (es : List Entry) (ok : String → Bool) :
    (uploadTasks objectId es).length = countFiles es
    ∧ (∀ t ∈ uploadTasks objectId es,
        (t.relativePath.endsWith ".m3u8" = true → t.contentType = "application/x-mpegURL")
        ∧ (t.relativePath.endsWith ".m3u8" = false → t.contentType = "video/MP2T"))
    ∧ ((∃ v, uploadHlsFilesToS3 objectId es ok = .ok v) ↔ ∀ rel ∈ walkRel "" es, ok rel = true)
    ∧ (∀ e, uploadHlsFilesToS3 objectId es ok = .error e →
        ∃ rel ∈ walkRel "" es, ok rel = false) := by
  refine ⟨?_, ?_, ?_, ?_⟩
  · rw [uploadTasks, List.length_map]
    exact walkRel_length "" es
  · intro t ht
    obtain ⟨rel, hrel, rfl⟩ := List.mem_map.mp ht
    constructor <;> intro hend <;> simp [contentTypeFor, hend]
  · rw [uploadHlsFilesToS3, promiseAll_ok_iff]
    constructor
    · intro hall rel hrel
      have := hall _ (List.mem_map.mpr ⟨_, List.mem_map.mpr ⟨rel, hrel, rfl⟩, rfl⟩)
      obtain ⟨a, ha⟩ := this
      by_contra hfalse
      simp [uploadTasks, Bool.not_eq_true] at hfalse
      rw [if_neg (by simp [hfalse])] at ha
      exact Except.noConfusion ha
    · intro hall x hx
      obtain ⟨t, htasks, rfl⟩ := List.mem_map.mp hx
      obtain ⟨rel, hrel, rfl⟩ := List.mem_map.mp htasks
      rw [if_pos (by simp [hall rel hrel])]
      exact ⟨(), rfl⟩
  · intro e herr
    by_contra hnone
    push_neg at hnone
    have hall : ∀ rel ∈ walkRel "" es, ok rel = true := by
      intro rel hrel
      have := hnone rel hrel
      revert this
      cases ok rel <;> simp
    have : ∃ v, uploadHlsFilesToS3 objectId es ok = .ok v := by
      rw [uploadHlsFilesToS3, promiseAll_ok_iff]
      intro x hx
      obtain ⟨t, htasks, rfl⟩ := List.mem_map.mp hx
      obtain ⟨rel, hrel, rfl⟩ := List.mem_map.mp htasks
      rw [if_pos (by simp [hall rel hrel])]
      exact ⟨(), rfl⟩
    obtain ⟨v, hv⟩ := this
    rw [herr] at hv
    exact Except.noConfusion hv


/-- Claim C8: every phase trace of one orchestrator run starts at
`converting`, each successive write follows the allowed order
converting → uploading → completed with divergence to `error` allowed from
any non-error phase (never a reversal), a successful run writes exactly
converting, uploading, completed, and a fatal outcome ends the trace at
`error` while re-propagating the original error of the failing stage. -/
theorem phase_register_monotonic (o : StageOutcomes) :
    List.Chain' phaseStep (convertToHLSTrace o).1
    ∧ (convertToHLSTrace o).1.head? = some .converting
    ∧ (∀ e, (convertToHLSTrace o).2 = .error e → (convertToHLSTrace o).1.getLast? = some .error)
    ∧ ((convertToHLSTrace o).2 = .ok () →
        (convertToHLSTrace o).1 = [.converting, .uploading, .completed])
    ∧ (∀ e, (convertToHLSTrace o).2 = .error e →
        o.probe = .error e
        ∨ (∃ w h, o.probe = .ok (w, h) ∧ firstEncodeError o (getDynamicResolutions w h 1) = some e)
        ∨ o.upload = .error e) := by
  unfold convertToHLSTrace
  rcases hp : o.probe with e | ⟨w, h⟩ <;> dsimp only
  · refine ⟨?_, rfl, fun e2 h2 => rfl, fun hok => Except.noConfusion hok, ?_⟩
    · simp [List.chain'_cons, phaseStep]
    · intro e2 h2
      simp only [Except.error.injEq] at h2
      subst h2
      exact Or.inl rfl
  · rcases hf : firstEncodeError o (getDynamicResolutions w h 1) with _ | e <;> dsimp only
    · rcases hu : o.upload with e | u <;> dsimp only
      · refine ⟨?_, rfl, fun e2 h2 => rfl, fun hok => Except.noConfusion hok, ?_⟩
        · simp [List.chain'_cons, phaseStep]
        · intro e2 h2
          simp only [Except.error.injEq] at h2
          subst h2
          exact Or.inr (Or.inr rfl)
      · exact ⟨by simp [List.chain'_cons, phaseStep], rfl,
          fun e2 h2 => Except.noConfusion h2, fun _ => rfl,
          fun e2 h2 => Except.noConfusion h2⟩
    · refine ⟨?_, rfl, fun e2 h2 => rfl, fun hok => Except.noConfusion hok, ?_⟩
      · simp [List.chain'_cons, phaseStep]
      · intro e2 h2
        simp only [Except.error.injEq] at h2
        subst h2
        exact Or.inr (Or.inl ⟨w, h, rfl, hf⟩)


/-- Cleanup of a flat directory of files: exactly the files whose unlink
fails remain, and exactly those failures are logged. -/
theorem cleanupList_files (failU failR : String → Bool) (p : String) :
    ∀ names : List String,
    cleanupList failU failR p (names.map Node.file) =
      ((names.filter (fun c => failU (p ++ "/" ++ c))).map Node.file,
       (names.filter (fun c => failU (p ++ "/" ++ c))).map
         (fun c => "Failed to delete file " ++ p ++ "/" ++ c))
  | [] => by simp [cleanupList]
  | c :: rest => by
      have ih := cleanupList_files failU failR p rest
      cases hc : failU (p ++ "/" ++ c) <;>
        simp [cleanupList, List.filter_cons, hc, ih]

/-- Claim C9: cleanup of a non-existent path returns silently with nothing
logged (so a second invocation after full removal is also a silent no-op),
cleanup of an already-empty directory removes it (or merely logs a failed
rmdir) and stays silent when repeated, and every per-entry deletion
failure is logged in the returned log — the function's result type is a
pure pair, every fallible operation of the body being caught, so no error
escalates to the caller. -/
theorem cleanup_idempotent_nonescalating (failU failR : String → Bool) (p n : String) (names : List String) :
    cleanupDirectory failU failR p none = (none, [])
    ∧ cleanupDirectory failU failR p ((cleanupDirectory failU failR p none).1) = (none, [])
    ∧ cleanupDirectory failU failR p (some (.dir n [])) =
        (if failR p then (some (.dir n []), ["Failed to delete directory " ++ p])
         else (none, []))
    ∧ (failR p = false →
        cleanupDirectory failU failR p
          ((cleanupDirectory failU failR p (some (.dir n []))).1) = (none, []))
    ∧ cleanupDirectory failU failR p (some (.dir n (names.map Node.file))) =
        (((if (names.filter (fun c => failU (p ++ "/" ++ c))).isEmpty && !failR p then none
           else some (.dir n ((names.filter (fun c => failU (p ++ "/" ++ c))).map Node.file)))),
          (names.filter (fun c => failU (p ++ "/" ++ c))).map
              (fun c => "Failed to delete file " ++ p ++ "/" ++ c) ++
            (if (names.filter (fun c => failU (p ++ "/" ++ c))).isEmpty && !failR p then []
             else ["Failed to delete directory " ++ p])) := by
  have hempty : cleanupList failU failR p [] = ([], []) := by simp [cleanupList]
  refine ⟨rfl, rfl, ?_, ?_, ?_⟩
  · cases hr : failR p <;> simp [cleanupDirectory, hempty, hr]
  · intro hr
    simp [cleanupDirectory, hempty, hr]
  · have hfiles := cleanupList_files failU failR p names
    have hiso : ∀ l : List String, (l.map Node.file).isEmpty = l.isEmpty := by
      intro l
      cases l <;> rfl
    simp only [cleanupDirectory, hfiles, hiso]
    cases hcond : (names.filter (fun c => failU (p ++ "/" ++ c))).isEmpty && !failR p <;>
      simp [hcond]

end VideoProcessor
